import Mathlib

/-!
Verification development for the Relax structural type/shape analysis core
and its Python operator helpers.

The Python files `analysis.py`, `op/base.py` and `op/datatype.py` are
embedded shallowly.  The analysis primitives (`struct_info_base_check`,
`struct_info_lca`, `erase_to_well_defined`, `derive_call_ret_struct_info`,
`well_formed`) are thin FFI wrappers in the Python source; their deciding
implementations are native code not present in this excerpt, so those
definitions are modelled from the specification's component design
(sections 3, 4.2-4.6) as indicated in each doc comment.
-/

namespace Relax

/-- Symbolic integer expressions appearing in shapes.  The spec treats
symbolic-expression equality and substitution as opaque primitives
(design note 9); we model the two forms the spec's scenarios use:
integer immediates and named symbolic variables. -/
inductive PrimExpr
  | imm (v : Int)
  | var (name : String)
deriving DecidableEq, Repr

/-- Modelled from the spec: the closed tagged-variant StructInfo data model
of section 3.  `dtype` is a string, `""` meaning unknown; `ndim` is a
non-negative integer or `-1` for unknown; `values` is the optional exact
symbolic shape.  `TensorInfo`'s optional shape is flattened into the
`ndim`/`values` fields (absent values with known `ndim` is the rank-only
form).  `FuncInfo` is either a concrete signature (`funcP`), an opaque
function known only by its return info (`funcO`), or an opaque function
with a custom return-derivation rule (`funcD`, identified by rule name,
whose declared return is the top type). -/
inductive StructInfo
  | object
  | prim (dtype : String)
  | shape (ndim : Int) (values : Option (List PrimExpr))
  | tensor (dtype : String) (ndim : Int) (values : Option (List PrimExpr))
  | tuple (fields : List StructInfo)
  | funcP (params : List StructInfo) (ret : StructInfo)
  | funcO (ret : StructInfo)
  | funcD (rule : String)

/-- Modelled from the spec: the graded base-check result of section 4.2
(mirrors `BaseCheckResult` in `analysis.py`, an IntEnum with
FAIL_L0 = 0 < FAIL_L1 = 1 < FAIL_L2 = 2 < PASS = 3). -/
inductive BaseCheckResult
  | FAIL_L0
  | FAIL_L1
  | FAIL_L2
  | PASS
deriving DecidableEq, Repr

namespace BaseCheckResult

/-- Numeric rank of a check result, following the IntEnum values. -/
def toNat : BaseCheckResult → Nat
  | .FAIL_L0 => 0
  | .FAIL_L1 => 1
  | .FAIL_L2 => 2
  | .PASS => 3

/-- Combine two fine-grained results by taking the more severe one
(the minimum in the IntEnum order). -/
def combine (a b : BaseCheckResult) : BaseCheckResult :=
  if a.toNat ≤ b.toNat then a else b

end BaseCheckResult

/-- Modelled from the spec: dtype subsumption for section 4.2 — an unknown
base dtype constrains nothing, otherwise the derived dtype must be the
same concrete dtype; the mismatch is visible statically (FAIL_L1). -/
def dtypeCheck (base derived : String) : BaseCheckResult :=
  if base = "" then .PASS
  else if base = derived then .PASS
  else .FAIL_L1

/-- Modelled from the spec: rank subsumption — an unknown base rank
constrains nothing; a differing rank cannot be reconciled by any
assignment of symbolic variables (FAIL_L0). -/
def ndimCheck (base derived : Int) : BaseCheckResult :=
  if base = -1 ∨ base = derived then .PASS else .FAIL_L0

/-- Modelled from the spec: per-dimension symbolic-expression comparison —
PASS if syntactically identical, FAIL_L1 if both concrete and different,
FAIL_L2 when the relation between symbolic variables is unknown. -/
def dimCheck : PrimExpr → PrimExpr → BaseCheckResult
  | .imm a, .imm b => if a = b then .PASS else .FAIL_L1
  | a, b => if a = b then .PASS else .FAIL_L2

/-- Modelled from the spec: subsumption of optional exact shape values —
an absent base shape constrains nothing; a base with exact values cannot
be confirmed against a derived rank-only shape (FAIL_L2); otherwise the
dimensions are compared pairwise and the results combined. -/
def valuesCheck : Option (List PrimExpr) → Option (List PrimExpr) → BaseCheckResult
  | none, _ => .PASS
  | some _, none => .FAIL_L2
  | some bs, some ds =>
    if bs.length = ds.length then
      (List.zip bs ds).foldl (fun acc p => acc.combine (dimCheck p.1 p.2)) .PASS
    else .FAIL_L0

mutual

/-- Modelled from the spec: the recursive base-check engine of section 4.2.
`struct_info_base_check base derived` decides whether every value
satisfying `derived` satisfies `base`.  The top type passes everything; a
derived top type against a more specific base is a static failure
(FAIL_L1); fundamentally different kinds are FAIL_L0.  Tensors and shapes
compare dtype, then rank, then per-dimension values.  Tuples compare
element-wise at equal arity.  Concrete function signatures compare
parameters invariantly (both directions, per the open design note 9) and
returns covariantly; opaque functions compare by return info, and custom
derivation rules only by rule identity (best effort, FAIL_L2 otherwise). -/
def struct_info_base_check : StructInfo → StructInfo → BaseCheckResult
  | .object, _ => .PASS
  | _, .object => .FAIL_L1
  | .prim a, .prim b => dtypeCheck a b
  | .shape n₁ v₁, .shape n₂ v₂ => (ndimCheck n₁ n₂).combine (valuesCheck v₁ v₂)
  | .tensor d₁ n₁ v₁, .tensor d₂ n₂ v₂ =>
    (dtypeCheck d₁ d₂).combine ((ndimCheck n₁ n₂).combine (valuesCheck v₁ v₂))
  | .tuple fs, .tuple gs =>
    if fs.length = gs.length then fieldsCheck fs gs else .FAIL_L0
  | .funcD a, .funcD b => if a = b then .PASS else .FAIL_L2
  | .funcD _, .funcP _ _ => .FAIL_L2
  | .funcD _, .funcO _ => .FAIL_L2
  | .funcO r, .funcP _ s => struct_info_base_check r s
  | .funcO r, .funcO s => struct_info_base_check r s
  | .funcO r, .funcD _ => struct_info_base_check r .object
  | .funcP ps r, .funcP qs s =>
    if ps.length = qs.length then
      (paramsCheck ps qs).combine (struct_info_base_check r s)
    else .FAIL_L0
  | .funcP _ _, .funcO _ => .FAIL_L2
  | .funcP _ _, .funcD _ => .FAIL_L2
  | _, _ => .FAIL_L0
termination_by a b => sizeOf a + sizeOf b
decreasing_by all_goals (simp_wf; try omega)

/-- Element-wise (covariant) base check of tuple fields, combined by
severity.  Only invoked at equal arity. -/
def fieldsCheck : List StructInfo → List StructInfo → BaseCheckResult
  | a :: as, b :: bs => (struct_info_base_check a b).combine (fieldsCheck as bs)
  | _, _ => .PASS
termination_by as bs => sizeOf as + sizeOf bs
decreasing_by all_goals (simp_wf; try omega)

/-- Invariant base check of function parameters: each pair is checked in
both directions and the results combined.  Only invoked at equal arity. -/
def paramsCheck : List StructInfo → List StructInfo → BaseCheckResult
  | a :: as, b :: bs =>
    ((struct_info_base_check b a).combine (struct_info_base_check a b)).combine
      (paramsCheck as bs)
  | _, _ => .PASS
termination_by as bs => sizeOf as + sizeOf bs
decreasing_by all_goals (simp_wf; try omega)

end

mutual

/-- Modelled from the spec: the LCA unifier of section 4.4.  Differing
variant kinds give the top type; matching tensors keep dtype/rank/values
only where the two sides agree, widening the disagreeing component to
unknown; tuples of equal arity unify element-wise, of differing arity
widen to the top type; concrete function signatures of equal arity unify
parameter- and return-wise, all other function pairs widen to an opaque
function over the unified (or top) return. -/
def struct_info_lca : StructInfo → StructInfo → StructInfo
  | .object, _ => .object
  | _, .object => .object
  | .prim a, .prim b => .prim (if a = b then a else "")
  | .shape n₁ v₁, .shape n₂ v₂ =>
    .shape (if n₁ = n₂ then n₁ else -1) (if v₁ = v₂ then v₁ else none)
  | .tensor d₁ n₁ v₁, .tensor d₂ n₂ v₂ =>
    .tensor (if d₁ = d₂ then d₁ else "") (if n₁ = n₂ then n₁ else -1)
      (if v₁ = v₂ then v₁ else none)
  | .tuple fs, .tuple gs =>
    if fs.length = gs.length then .tuple (lcaFields fs gs) else .object
  | .funcD a, .funcD b => if a = b then .funcD a else .funcO .object
  | .funcD _, .funcP _ _ => .funcO .object
  | .funcD _, .funcO _ => .funcO .object
  | .funcP _ _, .funcD _ => .funcO .object
  | .funcO _, .funcD _ => .funcO .object
  | .funcO r, .funcO s => .funcO (struct_info_lca r s)
  | .funcO r, .funcP _ s => .funcO (struct_info_lca r s)
  | .funcP _ r, .funcO s => .funcO (struct_info_lca r s)
  | .funcP ps r, .funcP qs s =>
    if ps.length = qs.length then .funcP (lcaFields ps qs) (struct_info_lca r s)
    else .funcO (struct_info_lca r s)
  | _, _ => .object
termination_by a b => sizeOf a + sizeOf b
decreasing_by all_goals (simp_wf; try omega)

/-- Element-wise LCA of tuple fields or function parameters.  Only invoked
at equal arity. -/
def lcaFields : List StructInfo → List StructInfo → List StructInfo
  | a :: as, b :: bs => struct_info_lca a b :: lcaFields as bs
  | _, _ => []
termination_by as bs => sizeOf as + sizeOf bs
decreasing_by all_goals (simp_wf; try omega)

end

/-- Substitute the defined shape variables of `m` in a symbolic expression;
variables absent from `m` are left in place (the escape check is separate). -/
def substPrim (m : List (String × PrimExpr)) : PrimExpr → PrimExpr
  | .imm v => .imm v
  | .var x =>
    match m.lookup x with
    | some e => e
    | none => .var x

/-- Does the expression reference only variables defined in the map? -/
def primDefined (m : List (String × PrimExpr)) : PrimExpr → Bool
  | .imm _ => true
  | .var x => (m.lookup x).isSome

/-- The variables a symbolic expression references. -/
def primFreeVars : PrimExpr → List String
  | .imm _ => []
  | .var x => [x]

/-- A shape-variable map is substitution-stable when every variable
occurring in one of its replacement expressions is mapped to itself, so
substituting the map into its own range changes nothing.  Maps whose
replacement expressions are concrete — such as the opening scenario's
map of n to 5 — are trivially stable. -/
def selfStableMap (m : List (String × PrimExpr)) : Bool :=
  m.all fun p => (primFreeVars p.2).all fun y => m.lookup y == some (.var y)

/-- Modelled from the spec: the escape policy of section 4.3 for a
`values` sequence — if any dimension's expression references a variable
absent from the map, the entire sequence is dropped; otherwise every
dimension is rewritten with its replacement expressions. -/
def eraseValues (m : List (String × PrimExpr)) (vs : List PrimExpr) :
    Option (List PrimExpr) :=
  if vs.all (primDefined m) then some (vs.map (substPrim m)) else none

mutual

/-- Modelled from the spec: the erasure engine of section 4.3.
`erase_to_well_defined sinfo shape_var_map var_map` rewrites `sinfo` so it
references only variables defined in the maps: an escaping `values`
sequence is dropped as a whole (rank retained), tuple fields and function
parameters/returns are erased independently, leaf variants are unchanged.
The modelled StructInfo contains no value-variable (`Var`) references —
shapes are symbolic-expression sequences — so `var_map` participates in
no rewrite. -/
def erase_to_well_defined (sinfo : StructInfo)
    (shape_var_map var_map : List (String × PrimExpr)) : StructInfo :=
  match sinfo with
  | .object => .object
  | .prim d => .prim d
  | .shape n none => .shape n none
  | .shape n (some vs) => .shape n (eraseValues shape_var_map vs)
  | .tensor d n none => .tensor d n none
  | .tensor d n (some vs) => .tensor d n (eraseValues shape_var_map vs)
  | .tuple fs => .tuple (eraseFields fs shape_var_map var_map)
  | .funcP ps r =>
    .funcP (eraseFields ps shape_var_map var_map)
      (erase_to_well_defined r shape_var_map var_map)
  | .funcO r => .funcO (erase_to_well_defined r shape_var_map var_map)
  | .funcD a => .funcD a
termination_by sizeOf sinfo
decreasing_by all_goals (simp_wf; try omega)

/-- Independent erasure of a sequence of tuple fields or parameters. -/
def eraseFields (fs : List StructInfo)
    (shape_var_map var_map : List (String × PrimExpr)) : List StructInfo :=
  match fs with
  | [] => []
  | a :: as =>
    erase_to_well_defined a shape_var_map var_map ::
      eraseFields as shape_var_map var_map
termination_by sizeOf fs
decreasing_by all_goals (simp_wf; try omega)

end

/-- One unification step of section 4.5: equate a declared dimension with
the corresponding actual dimension, binding a still-unbound formal
symbolic variable to the actual expression. -/
def unifyDim (b : List (String × PrimExpr)) : PrimExpr × PrimExpr →
    List (String × PrimExpr)
  | (.var x, e) => if (b.lookup x).isSome then b else (x, e) :: b
  | _ => b

/-- Pairwise unification of two `values` sequences, accumulating variable
bindings left to right. -/
def unifyVals (vs ws : List PrimExpr) (b : List (String × PrimExpr)) :
    List (String × PrimExpr) :=
  (List.zip vs ws).foldl unifyDim b

mutual

/-- Modelled from the spec: structural unification of a declared parameter
StructInfo against the actual argument's StructInfo (section 4.5),
extracting bindings for the formal symbolic shape variables. -/
def unifySinfo (param arg : StructInfo) (b : List (String × PrimExpr)) :
    List (String × PrimExpr) :=
  match param, arg with
  | .shape _ (some vs), .shape _ (some ws) => unifyVals vs ws b
  | .tensor _ _ (some vs), .tensor _ _ (some ws) => unifyVals vs ws b
  | .tuple fs, .tuple gs => unifyFields fs gs b
  | _, _ => b
termination_by sizeOf param
decreasing_by all_goals (simp_wf; try omega)

/-- Unify corresponding fields of declared and actual tuples. -/
def unifyFields (fs gs : List StructInfo) (b : List (String × PrimExpr)) :
    List (String × PrimExpr) :=
  match fs, gs with
  | f :: fs, g :: gs => unifyFields fs gs (unifySinfo f g b)
  | _, _ => b
termination_by sizeOf fs
decreasing_by all_goals (simp_wf; try omega)

end

/-- Modelled from the spec: the call return-type deriver of section 4.5
for a concrete `FuncInfo` signature with no custom derivation rule — the
parameter list is structurally unified against the actual argument
StructInfo list to extract the formal symbolic shape variables' bindings,
and the declared return StructInfo is erased to the variables so bound.
Opaque signatures return their declared return info; custom derivation
rules are native callbacks outside this model (`none`). -/
def derive_call_ret_struct_info (func_sinfo : StructInfo)
    (args : List StructInfo) : Option StructInfo :=
  match func_sinfo with
  | .funcP ps r =>
    if ps.length = args.length then
      some (erase_to_well_defined r (unifyFields ps args []) [])
    else none
  | .funcO r => some r
  | _ => none

/-! ### Module well-formedness checker (spec section 4.6) -/

/-- A let-binding in the modelled IR: the bound variable's name, the names
referenced by the bound expression, and whether the bound expression
carries a defined StructInfo. -/
structure RBinding where
  varName : String
  uses : List String
  hasStructInfo : Bool

/-- Modelled from the spec: a binding region — either a dataflow block,
whose live outputs are explicitly declared and are the only variables
exposed to the enclosing scope, or a plain binding block exposing every
variable it binds. -/
inductive RBlock
  | dataflow (bindings : List RBinding) (outputs : List String)
  | plain (bindings : List RBinding)

/-- A function of the modelled IR: parameters and a body of blocks. -/
structure RFunction where
  params : List String
  blocks : List RBlock

/-- A module is a sequence of functions, traversed in order. -/
abbrev IRModule := List RFunction

/-- Modelled from the spec: scoping/single-definition discipline inside a
block — every use must be in scope and a variable may be bound only once. -/
def bindingsOk (scope : List String) : List RBinding → Bool
  | [] => true
  | b :: bs =>
    b.uses.all scope.contains && !scope.contains b.varName &&
      bindingsOk (b.varName :: scope) bs

/-- Names bound by a list of bindings. -/
def boundNames (bs : List RBinding) : List String := bs.map (·.varName)

/-- Modelled from the spec: check the blocks of a function body in order.
A dataflow block's declared outputs must be variables it binds, and only
those outputs enter the enclosing scope; a plain block exposes all its
bindings. -/
def blocksOk (scope : List String) : List RBlock → Bool
  | [] => true
  | .plain bs :: rest => bindingsOk scope bs && blocksOk (boundNames bs ++ scope) rest
  | .dataflow bs outs :: rest =>
    bindingsOk scope bs && outs.all (boundNames bs).contains &&
      blocksOk (outs ++ scope) rest

/-- Does every binding of the function carry a defined StructInfo? -/
def funcStructInfoOk (f : RFunction) : Bool :=
  f.blocks.all fun blk =>
    match blk with
    | .plain bs => bs.all (·.hasStructInfo)
    | .dataflow bs _ => bs.all (·.hasStructInfo)

/-- Modelled from the spec: well-formedness of one function — the scoping
invariants always, and the defined-StructInfo invariant when
`check_struct_info` is enabled. -/
def funcOk (check_struct_info : Bool) (f : RFunction) : Bool :=
  blocksOk f.params f.blocks && (!check_struct_info || funcStructInfoOk f)

/-- Modelled from the spec: the module well-formedness query of section
4.6, wrapping the `well_formed` entry of `analysis.py` — a pure boolean
query over every function of the module; `check_struct_info` defaults to
`true` exactly as in the Python signature. -/
def well_formed (mod : IRModule) (check_struct_info : Bool := true) : Bool :=
  mod.all (funcOk check_struct_info)

/-- Propositional reading of `bindingsOk`. -/
def BindingsWF (scope : List String) : List RBinding → Prop
  | [] => True
  | b :: bs =>
    (∀ u ∈ b.uses, u ∈ scope) ∧ b.varName ∉ scope ∧
      BindingsWF (b.varName :: scope) bs

/-- Propositional reading of `blocksOk`. -/
def BlocksWF (scope : List String) : List RBlock → Prop
  | [] => True
  | .plain bs :: rest => BindingsWF scope bs ∧ BlocksWF (boundNames bs ++ scope) rest
  | .dataflow bs outs :: rest =>
    BindingsWF scope bs ∧ (∀ o ∈ outs, o ∈ boundNames bs) ∧
      BlocksWF (outs ++ scope) rest

/-- Propositional reading of module well-formedness: every function obeys
the scoping invariants, and when `check_struct_info` is enabled every
binding carries a defined StructInfo. -/
def WellFormed (mod : IRModule) (check_struct_info : Bool) : Prop :=
  ∀ f ∈ mod, BlocksWF f.params f.blocks ∧
    (check_struct_info = true → funcStructInfoOk f = true)

/-! ### Python operator layer: `op/base.py` and `op/datatype.py` -/

/-- Python-level errors raised by the modelled operator helpers. -/
inductive PyError
  | typeError (msg : String)
  | valueError (msg : String)
  | assertionError (msg : String)
  | nameError (name : String)
deriving DecidableEq, Repr

/-- Python-level struct info objects as received by `call_tir`'s
`output_tensor_sinfo` argument.  A `TensorStructInfo` carries its dtype
(`""` for unknown/void) and an optional shape expression whose
`ShapeStructInfo` in turn has optional `values` — hence the nested
option.  Other StructInfo kinds are represented by the remaining
constructors. -/
inductive PySinfo
  | tensorSI (dtype : String) (shape : Option (Option (List PrimExpr)))
  | tupleSI (arity : Nat)
  | objectSI

/-- Short rendering of a Python struct info object for interpolated error
messages (the exact textual printing of TVM objects is abstracted). -/
def pySinfoStr : PySinfo → String
  | .tensorSI _ _ => "TensorStructInfo"
  | .tupleSI _ => "TupleStructInfo"
  | .objectSI => "ObjectStructInfo"

/-- The static type paired with each converted output shape:
`DynTensorType(ndim, dtype)` in the source. -/
structure DynTensorType where
  ndim : Nat
  dtype : String
deriving DecidableEq, Repr

/-- `_convert_shape_type` from `call_tir` (`op/base.py`): reject an output
struct info that is not a TensorStructInfo (TypeError), has unknown dtype
(ValueError), or has no defined symbolic shape — either no shape
expression or a shape expression without `values` (ValueError); otherwise
return the shape together with `DynTensorType(len(values), dtype)`. -/
def convert_shape_type : PySinfo → Except PyError (List PrimExpr × DynTensorType)
  | .tensorSI dtype shape =>
    if dtype = "" then .error (.valueError "The output tensor should have known dtype")
    else
      match shape with
      | none => .error (.valueError "The output tensor should have defined symbolic shape")
      | some none =>
        .error (.valueError "The output tensor should have defined symbolic shape")
      | some (some vs) => .ok (vs, ⟨vs.length, dtype⟩)
  | s =>
    .error (.typeError
      ("The output struct info is only allowed to be TensorStructInfo. However, one " ++
        "given struct info is " ++ pySinfoStr s))

/-- Relax expressions, as far as `call_tir`'s plumbing needs them. -/
inductive ExprM
  | externFunc (global_symbol : String)
  | varE (name : String)
  | tupleE (fields : List ExprM)

/-- `call_tir`'s coercion of its `func` argument: a string becomes an
`ExternFunc`. -/
def callTirFunc : Sum String ExprM → ExprM
  | .inl s => .externFunc s
  | .inr e => e

/-- `call_tir`'s coercion of its `args` argument: a single expression is
wrapped in a one-element `Tuple`, a Python list becomes a `Tuple`. -/
def callTirArgs : Sum ExprM (List ExprM) → ExprM
  | .inl e => .tupleE [e]
  | .inr l => .tupleE l

/-- The call node handed to the native `call_tir` constructor: the
converted pieces it receives, a single shape/type or tuples of them. -/
structure CallTirNode where
  func : ExprM
  args : ExprM
  shapeArg : Sum (List PrimExpr) (List (List PrimExpr))
  typeArg : Sum DynTensorType (List DynTensorType)
  tirVars : Option (List PrimExpr)

/-- `call_tir` from `op/base.py`: coerce `func` and `args`, convert the
declared output struct info (a single TensorStructInfo or a list of
them) through `convert_shape_type`, and only then build the call node.
A failing conversion propagates its error before any node is built; an
empty output list fails Python's 2-tuple unpacking of `zip()` with a
ValueError. -/
def call_tir (func : Sum String ExprM) (args : Sum ExprM (List ExprM))
    (output_tensor_sinfo : Sum PySinfo (List PySinfo))
    (tir_vars : Option (List PrimExpr) := none) : Except PyError CallTirNode :=
  match output_tensor_sinfo with
  | .inr l =>
    match l.mapM convert_shape_type with
    | .error e => .error e
    | .ok pairs =>
      if pairs.isEmpty then
        .error (.valueError "not enough values to unpack (expected 2, got 0)")
      else
        .ok ⟨callTirFunc func, callTirArgs args, .inr (pairs.map (·.1)),
          .inr (pairs.map (·.2)), tir_vars⟩
  | .inl s =>
    match convert_shape_type s with
    | .error e => .error e
    | .ok (sh, tt) =>
      .ok ⟨callTirFunc func, callTirArgs args, .inl sh, .inl tt, tir_vars⟩

/-- Runtime objects passed to the registered `relax.run.assert_op`
function: an NDArray (dtype, shape, and — for the boolean scalars the
operator cares about — its truth value), an ADT container, or some other
object carrying only its rendering. -/
inductive TVMObj
  | ndarray (dtype : String) (shape : List Nat) (value : Bool)
  | adt (tag : Nat) (fields : List TVMObj)
  | other (rendered : String)

/-- The Python type name of an object, for interpolated error messages. -/
def objTypeName : TVMObj → String
  | .ndarray _ _ _ => "tvm.nd.NDArray"
  | .adt _ _ => "tvm.runtime.container.ADT"
  | .other _ => "object"

/-- Python tuple repr of an NDArray shape, for the non-scalar message. -/
def pyTupleStr : List Nat → String
  | [] => "()"
  | [x] => "(" ++ toString x ++ ",)"
  | xs => "(" ++ String.intercalate ", " (xs.map toString) ++ ")"

mutual

/-- `render_object` from `op/base.py`: NDArrays render via `str` (their
numpy-value printing is abstracted to the truth value here), ADTs render
their fields recursively — tag 0 as a parenthesised tuple, others in
`ADT(tag=..., fields=[...])` form — and any other object renders via
`str`. -/
def render_object : TVMObj → String
  | .ndarray _ _ v => if v then "True" else "False"
  | .adt tag fields =>
    if tag = 0 then "(" ++ renderFields fields ++ ")"
    else "ADT(tag=" ++ toString tag ++ ", fields=[" ++ renderFields fields ++ "])"
  | .other r => r
termination_by o => sizeOf o
decreasing_by all_goals (simp_wf; try omega)

/-- Comma-separated rendering of ADT fields. -/
def renderFields : List TVMObj → String
  | [] => ""
  | [f] => render_object f
  | f :: fs => render_object f ++ ", " ++ renderFields fs
termination_by fs => sizeOf fs
decreasing_by all_goals (simp_wf; try omega)

end

/-- Python `str.format` restricted to the automatic `\x7b\x7d` fields the
operator uses: each such field consumes the next positional argument. -/
def pyFormatAux : List Char → List String → String
  | [], _ => ""
  | '\x7b' :: '\x7d' :: rest, a :: as => a ++ pyFormatAux rest as
  | '\x7b' :: '\x7d' :: rest, [] => pyFormatAux rest []
  | c :: rest, as => String.singleton c ++ pyFormatAux rest as

/-- Python `format_str.format(*args)` over automatic fields. -/
def pyFormat (fmt : String) (args : List String) : String :=
  pyFormatAux fmt.toList args

/-- The error message computed by `relax_assert_op` for a failing
condition: the formatted `format_str` when non-empty, else the
comma-separated rendered format arguments when any are given, else
"Assertion Failed". -/
def assertMessage (format_str : String) (rendered : List String) : String :=
  if !rendered.isEmpty || format_str ≠ "" then
    if format_str ≠ "" then pyFormat format_str rendered
    else String.intercalate ", " rendered
  else "Assertion Failed"

/-- The `format_str` parameter as received at runtime: a Python `str` or
an object of some other type (carrying its type name). -/
inductive PyStrArg
  | pyStr (s : String)
  | nonStr (typeName : String)

/-- `relax_assert_op` from `op/base.py` (registered as
"relax.run.assert_op"): validate that `format_str` is a string, that the
condition is an NDArray, of dtype bool, and of empty shape — each
violation a ValueError — then return unit if the condition value is true
and otherwise raise an AssertionError carrying `assertMessage`. -/
def relax_assert_op (condition : TVMObj) (format_str : PyStrArg)
    (format_args : List TVMObj) : Except PyError Unit :=
  match format_str with
  | .nonStr t =>
    .error (.valueError
      ("The format string argument to assert must be a string, given " ++ t ++ ")"))
  | .pyStr fs =>
    match condition with
    | .ndarray dtype shape v =>
      if dtype ≠ "bool" then
        .error (.valueError
          ("The condition must be a bool scalar, but given a " ++ dtype ++ " tensor"))
      else if shape.length ≠ 0 then
        .error (.valueError
          ("The condition must be a scalar, but it has a shape of " ++ pyTupleStr shape))
      else if v then .ok ()
      else .error (.assertionError (assertMessage fs (format_args.map render_object)))
    | c =>
      .error (.valueError
        ("The condition must be an NDArray, but given a " ++ objTypeName c ++ "."))

/-! ### Import-time evaluation of `op/datatype.py` -/

/-- A top-level statement of a Python module, as far as import-time name
resolution is concerned: an import binding names, or a function
definition whose signature annotations reference names (evaluated at
definition time, in order of appearance — the module has no
`annotations` future-import). -/
inductive PyStmt
  | importNames (names : List String)
  | defFun (fname : String) (annotationRefs : List String)

/-- Builtin names available without any import. -/
def pyBuiltins : List String := ["str", "int", "None"]

/-- Evaluate a definition's annotations left to right: the first name not
bound in the module environment raises NameError. -/
def evalAnnotations (env : List String) : List String → Except PyError Unit
  | [] => .ok ()
  | r :: rs =>
    if env.contains r then evalAnnotations env rs else .error (.nameError r)

/-- Execute a module's top-level statements in order, threading the set of
bound names; a NameError aborts the whole import. -/
def execStmts (env : List String) : List PyStmt → Except PyError (List String)
  | [] => .ok env
  | .importNames ns :: rest => execStmts (ns ++ env) rest
  | .defFun f refs :: rest =>
    match evalAnnotations env refs with
    | .error e => .error e
    | .ok _ => execStmts (f :: env) rest

/-- The top-level statements of `op/datatype.py`: its imports (only
`Union` from `typing`), then its five function definitions with the
names their signature annotations reference, in order of appearance. -/
def datatypeModule : List PyStmt :=
  [.importNames ["Union"],
   .importNames ["DataType"],
   .importNames ["_ffi_api"],
   .importNames ["Constant", "Expr"],
   .defFun "astype" ["Expr", "Union", "str", "DataType", "Expr"],
   .defFun "wrap_param" ["Expr", "Union", "str", "DataType", "Expr"],
   .defFun "cumsum" ["Expr", "Optional", "int", "Expr"],
   .defFun "collapse_sum_like" ["Expr", "Expr", "Expr"],
   .defFun "collapse_sum_to"
     ["Expr", "Union", "PrimExprLike", "List", "PrimExprLike", "Tuple",
      "PrimExprLike", "Expr", "Expr"]]

/-- The result of importing `op/datatype.py`: the module's bound names, or
the import-time error. -/
def importDatatypeModule : Except PyError (List String) :=
  execStmts pyBuiltins datatypeModule

/-- Is the attribute `nm` reachable on the imported module?  An import
that raised leaves no module object, hence no reachable attribute. -/
def datatypeModuleAttr (nm : String) : Bool :=
  match importDatatypeModule with
  | .ok env => env.contains nm
  | .error _ => false

end Relax

namespace Relax

/-! ### Helper lemmas for the base-check/LCA algebra -/

theorem combine_pass_iff (a b : BaseCheckResult) :
    a.combine b = .PASS ↔ a = .PASS ∧ b = .PASS := by
  cases a <;> cases b <;>
    simp [BaseCheckResult.combine, BaseCheckResult.toNat]

theorem dtypeCheck_pass {a b : String} (h : dtypeCheck a b = .PASS) :
    a = "" ∨ a = b := by
  unfold dtypeCheck at h
  split at h
  · exact .inl (by assumption)
  · split at h
    · exact .inr (by assumption)
    · exact absurd h (by simp)

theorem ndimCheck_pass {m n : Int} (h : ndimCheck m n = .PASS) :
    m = -1 ∨ m = n := by
  unfold ndimCheck at h
  split at h
  · assumption
  · exact absurd h (by simp)

theorem dimCheck_pass {p q : PrimExpr} (h : dimCheck p q = .PASS) : p = q := by
  cases p <;> cases q <;> simp only [dimCheck] at h <;> split at h <;> simp_all

theorem foldl_combine_pass {l : List (PrimExpr × PrimExpr)}
    {acc : BaseCheckResult}
    (h : l.foldl (fun acc p => acc.combine (dimCheck p.1 p.2)) acc = .PASS) :
    acc = .PASS ∧ ∀ p ∈ l, dimCheck p.1 p.2 = .PASS := by
  induction l generalizing acc with
  | nil => simpa using h
  | cons p ps ih =>
    simp only [List.foldl_cons] at h
    obtain ⟨h1, h2⟩ := ih h
    obtain ⟨ha, hp⟩ := (combine_pass_iff _ _).mp h1
    refine ⟨ha, ?_⟩
    intro q hq
    rcases List.mem_cons.mp hq with rfl | hq'
    · exact hp
    · exact h2 q hq'

theorem eq_of_zip_fst_eq_snd {α : Type} {bs ds : List α}
    (hlen : bs.length = ds.length)
    (h : ∀ p ∈ bs.zip ds, p.1 = p.2) : bs = ds := by
  induction bs generalizing ds with
  | nil => cases ds with
    | nil => rfl
    | cons d ds => simp at hlen
  | cons b bs ih =>
    cases ds with
    | nil => simp at hlen
    | cons d ds =>
      have hb : b = d := h (b, d) (by simp)
      have ht : bs = ds := by
        refine ih (by simpa using hlen) ?_
        intro q hq
        exact h q (by simp [hq])
      simp [hb, ht]

theorem valuesCheck_pass {v w : Option (List PrimExpr)}
    (h : valuesCheck v w = .PASS) : v = none ∨ v = w := by
  cases v with
  | none => exact .inl rfl
  | some bs =>
    cases w with
    | none => exact absurd h (by simp [valuesCheck])
    | some ds =>
      right
      simp only [valuesCheck] at h
      split at h
      · rename_i hlen
        obtain ⟨-, hall⟩ := foldl_combine_pass h
        have hbd : bs = ds :=
          eq_of_zip_fst_eq_snd hlen fun p hp => dimCheck_pass (hall p hp)
        simp [hbd]
      · exact absurd h (by simp)

end Relax

namespace Relax

/-- Symmetry of the agree-or-widen pattern used by the LCA unifier. -/
theorem ite_agree_comm {α : Type} [DecidableEq α] (x y d : α) :
    (if x = y then x else d) = (if y = x then y else d) := by
  rcases eq_or_ne x y with h | h
  · subst h; rfl
  · rw [if_neg h, if_neg (Ne.symm h)]

mutual

theorem lca_self (s : StructInfo) : struct_info_lca s s = s := by
  cases s <;> simp [struct_info_lca]
  case tuple fs => exact lcaFields_self fs
  case funcP ps r => exact ⟨lcaFields_self ps, lca_self r⟩
  case funcO r => exact lca_self r
termination_by sizeOf s
decreasing_by all_goals (simp_wf; try omega)

theorem lcaFields_self (fs : List StructInfo) : lcaFields fs fs = fs := by
  cases fs with
  | nil => simp [lcaFields]
  | cons a as =>
    simp [lcaFields]
    exact ⟨lca_self a, lcaFields_self as⟩
termination_by sizeOf fs
decreasing_by all_goals (simp_wf; try omega)

end

mutual

theorem lca_comm (a b : StructInfo) :
    struct_info_lca a b = struct_info_lca b a := by
  cases a <;> cases b <;> simp only [struct_info_lca]
  case prim.prim x y => rw [ite_agree_comm]
  case shape.shape n₁ v₁ n₂ v₂ => rw [ite_agree_comm n₁ n₂, ite_agree_comm v₁ v₂]
  case tensor.tensor d₁ n₁ v₁ d₂ n₂ v₂ =>
    rw [ite_agree_comm d₁ d₂, ite_agree_comm n₁ n₂, ite_agree_comm v₁ v₂]
  case tuple.tuple fs gs =>
    rcases eq_or_ne fs.length gs.length with h | h
    · rw [if_pos h, if_pos h.symm, lcaFields_comm fs gs]
    · rw [if_neg h, if_neg (Ne.symm h)]
  case funcD.funcD x y =>
    rcases eq_or_ne x y with h | h
    · subst h; rfl
    · rw [if_neg h, if_neg (Ne.symm h)]
  case funcO.funcO r s => rw [lca_comm r s]
  case funcO.funcP r qs s => rw [lca_comm r s]
  case funcP.funcO qs s r => rw [lca_comm s r]
  case funcP.funcP ps r qs s =>
    rcases eq_or_ne ps.length qs.length with h | h
    · rw [if_pos h, if_pos h.symm, lcaFields_comm ps qs, lca_comm r s]
    · rw [if_neg h, if_neg (Ne.symm h), lca_comm r s]
termination_by sizeOf a + sizeOf b
decreasing_by all_goals (simp_wf; try omega)

theorem lcaFields_comm (fs gs : List StructInfo) :
    lcaFields fs gs = lcaFields gs fs := by
  cases fs with
  | nil => cases gs <;> simp [lcaFields]
  | cons a as =>
    cases gs with
    | nil => simp [lcaFields]
    | cons b bs =>
      simp only [lcaFields]
      rw [lca_comm a b, lcaFields_comm as bs]
termination_by sizeOf fs + sizeOf gs
decreasing_by all_goals (simp_wf; try omega)

end

end Relax

namespace Relax

/-- The agree-or-widen pattern keeps the left side whenever the base check
allowed it: the left component is the widened default or equals the right. -/
theorem agree_or_widen {α : Type} [DecidableEq α] {x y d : α}
    (h : x = d ∨ x = y) : (if x = y then x else d) = x := by
  rcases eq_or_ne x y with h2 | h2
  · rw [if_pos h2]
  · rcases h with h1 | h1
    · rw [if_neg h2, h1]
    · exact absurd h1 h2

theorem base_check_object_pass {r : StructInfo}
    (h : struct_info_base_check r .object = .PASS) : r = .object := by
  cases r <;> simp only [struct_info_base_check] at h <;>
    first
      | rfl
      | exact absurd h (by simp)

mutual

theorem base_check_pass_lca (a b : StructInfo)
    (h : struct_info_base_check a b = .PASS) :
    struct_info_lca a b = a := by
  cases a with
  | object => cases b <;> simp [struct_info_lca]
  | prim x =>
    cases b <;> try (exfalso; revert h; simp [struct_info_base_check]; done)
    case prim y =>
      simp only [struct_info_base_check] at h
      simp only [struct_info_lca]
      rw [agree_or_widen (dtypeCheck_pass h)]
  | shape n₁ v₁ =>
    cases b <;> try (exfalso; revert h; simp [struct_info_base_check]; done)
    case shape n₂ v₂ =>
      simp only [struct_info_base_check] at h
      obtain ⟨hn, hv⟩ := (combine_pass_iff _ _).mp h
      simp only [struct_info_lca]
      rw [agree_or_widen (ndimCheck_pass hn), agree_or_widen (valuesCheck_pass hv)]
  | tensor d₁ n₁ v₁ =>
    cases b <;> try (exfalso; revert h; simp [struct_info_base_check]; done)
    case tensor d₂ n₂ v₂ =>
      simp only [struct_info_base_check] at h
      obtain ⟨hd, h'⟩ := (combine_pass_iff _ _).mp h
      obtain ⟨hn, hv⟩ := (combine_pass_iff _ _).mp h'
      simp only [struct_info_lca]
      rw [agree_or_widen (dtypeCheck_pass hd), agree_or_widen (ndimCheck_pass hn),
        agree_or_widen (valuesCheck_pass hv)]
  | tuple fs =>
    cases b <;> try (exfalso; revert h; simp [struct_info_base_check]; done)
    case tuple gs =>
      simp only [struct_info_base_check] at h
      split at h
      · rename_i hlen
        simp only [struct_info_lca]
        rw [if_pos hlen, fields_pass_lca fs gs hlen h]
      · exact absurd h (by simp)
  | funcP ps r =>
    cases b <;> try (exfalso; revert h; simp [struct_info_base_check]; done)
    case funcP qs s =>
      simp only [struct_info_base_check] at h
      split at h
      · rename_i hlen
        obtain ⟨hp, hr⟩ := (combine_pass_iff _ _).mp h
        simp only [struct_info_lca]
        rw [if_pos hlen, params_pass_lca ps qs hlen hp, base_check_pass_lca r s hr]
      · exact absurd h (by simp)
  | funcO r =>
    cases b <;> try (exfalso; revert h; simp [struct_info_base_check]; done)
    case funcP qs s =>
      simp only [struct_info_base_check] at h
      simp only [struct_info_lca]
      rw [base_check_pass_lca r s h]
    case funcO s =>
      simp only [struct_info_base_check] at h
      simp only [struct_info_lca]
      rw [base_check_pass_lca r s h]
    case funcD y =>
      simp only [struct_info_base_check] at h
      have hr := base_check_object_pass h
      subst hr
      simp [struct_info_lca]
  | funcD x =>
    cases b <;> try (exfalso; revert h; simp [struct_info_base_check]; done)
    case funcD y =>
      simp only [struct_info_base_check] at h
      split at h
      · rename_i h2
        subst h2
        simp [struct_info_lca]
      · exact absurd h (by simp)
termination_by sizeOf a + sizeOf b
decreasing_by all_goals (subst_vars; simp_wf; try omega)

theorem fields_pass_lca (fs gs : List StructInfo) (hlen : fs.length = gs.length)
    (h : fieldsCheck fs gs = .PASS) : lcaFields fs gs = fs := by
  cases fs with
  | nil =>
    cases gs with
    | nil => simp [lcaFields]
    | cons b bs => simp at hlen
  | cons a as =>
    cases gs with
    | nil => simp at hlen
    | cons b bs =>
      simp only [fieldsCheck] at h
      obtain ⟨hab, h2⟩ := (combine_pass_iff _ _).mp h
      simp only [lcaFields]
      rw [base_check_pass_lca a b hab,
        fields_pass_lca as bs (by simpa using hlen) h2]
termination_by sizeOf fs + sizeOf gs
decreasing_by all_goals (subst_vars; simp_wf; try omega)

theorem params_pass_lca (ps qs : List StructInfo) (hlen : ps.length = qs.length)
    (h : paramsCheck ps qs = .PASS) : lcaFields ps qs = ps := by
  cases ps with
  | nil =>
    cases qs with
    | nil => simp [lcaFields]
    | cons b bs => simp at hlen
  | cons a as =>
    cases qs with
    | nil => simp at hlen
    | cons b bs =>
      simp only [paramsCheck] at h
      obtain ⟨h1, h2⟩ := (combine_pass_iff _ _).mp h
      obtain ⟨hba, hab⟩ := (combine_pass_iff _ _).mp h1
      simp only [lcaFields]
      rw [base_check_pass_lca a b hab,
        params_pass_lca as bs (by simpa using hlen) h2]
termination_by sizeOf ps + sizeOf qs
decreasing_by all_goals (subst_vars; simp_wf; try omega)

end

end Relax

namespace Relax

/-! ### Erasure lemmas -/

theorem lookup_mem_of_eq_some {m : List (String × PrimExpr)} {x : String}
    {e : PrimExpr} (h : m.lookup x = some e) : (x, e) ∈ m := by
  induction m with
  | nil => simp [List.lookup] at h
  | cons p ps ih =>
    rw [List.lookup_cons] at h
    split at h
    · rename_i hbeq
      obtain rfl : x = p.1 := by simpa using hbeq
      obtain rfl : p.2 = e := by simpa using h
      exact List.mem_cons_self _ _
    · exact List.mem_cons_of_mem _ (ih h)

theorem selfStableMap_lookup {m : List (String × PrimExpr)} {x y : String}
    {e : PrimExpr} (hm : selfStableMap m = true) (hx : m.lookup x = some e)
    (hy : y ∈ primFreeVars e) : m.lookup y = some (.var y) := by
  have hmem := lookup_mem_of_eq_some hx
  have := (List.all_eq_true.mp hm) (x, e) hmem
  have h2 := (List.all_eq_true.mp this) y hy
  simpa using h2

theorem substPrim_stable {m : List (String × PrimExpr)} {e : PrimExpr}
    (hm : selfStableMap m = true) (hd : primDefined m e = true) :
    primDefined m (substPrim m e) = true ∧
      substPrim m (substPrim m e) = substPrim m e := by
  cases e with
  | imm v => simp [substPrim, primDefined]
  | var x =>
    simp only [primDefined, Option.isSome_iff_exists] at hd
    obtain ⟨e', he'⟩ := hd
    simp only [substPrim, he']
    cases e' with
    | imm v => simp [substPrim, primDefined]
    | var y =>
      have hy := @selfStableMap_lookup m x y _ hm he' (by simp [primFreeVars])
      simp [substPrim, primDefined, hy]

theorem eraseValues_idem {m : List (String × PrimExpr)} {vs ws : List PrimExpr}
    (hm : selfStableMap m = true) (h : eraseValues m vs = some ws) :
    eraseValues m ws = some ws := by
  unfold eraseValues at h
  split at h
  · rename_i hall
    obtain rfl : vs.map (substPrim m) = ws := by simpa using h
    have hall' := List.all_eq_true.mp hall
    unfold eraseValues
    rw [if_pos, List.map_map]
    · have : ∀ e ∈ vs, (substPrim m ∘ substPrim m) e = substPrim m e := by
        intro e he
        exact (substPrim_stable hm (hall' e he)).2
      exact congrArg some (List.map_congr_left this)
    · rw [List.all_eq_true]
      intro w hw
      obtain ⟨e, he, rfl⟩ := List.mem_map.mp hw
      exact (substPrim_stable hm (hall' e he)).1
  · exact absurd h (by simp)

mutual

theorem erase_idem (s : StructInfo) (svm vm : List (String × PrimExpr))
    (hm : selfStableMap svm = true) :
    erase_to_well_defined (erase_to_well_defined s svm vm) svm vm =
      erase_to_well_defined s svm vm := by
  cases s with
  | object => simp [erase_to_well_defined]
  | prim d => simp [erase_to_well_defined]
  | funcD a => simp [erase_to_well_defined]
  | shape n v =>
    cases v with
    | none => simp [erase_to_well_defined]
    | some vs =>
      simp only [erase_to_well_defined]
      cases hv : eraseValues svm vs with
      | none => simp [erase_to_well_defined]
      | some ws => simp [erase_to_well_defined, eraseValues_idem hm hv]
  | tensor d n v =>
    cases v with
    | none => simp [erase_to_well_defined]
    | some vs =>
      simp only [erase_to_well_defined]
      cases hv : eraseValues svm vs with
      | none => simp [erase_to_well_defined]
      | some ws => simp [erase_to_well_defined, eraseValues_idem hm hv]
  | tuple fs =>
    simp only [erase_to_well_defined]
    rw [eraseFields_idem fs svm vm hm]
  | funcP ps r =>
    simp only [erase_to_well_defined]
    rw [eraseFields_idem ps svm vm hm, erase_idem r svm vm hm]
  | funcO r =>
    simp only [erase_to_well_defined]
    rw [erase_idem r svm vm hm]
termination_by sizeOf s
decreasing_by all_goals (subst_vars; simp_wf; try omega)

theorem eraseFields_idem (fs : List StructInfo)
    (svm vm : List (String × PrimExpr)) (hm : selfStableMap svm = true) :
    eraseFields (eraseFields fs svm vm) svm vm = eraseFields fs svm vm := by
  cases fs with
  | nil => simp [eraseFields]
  | cons a as =>
    simp only [eraseFields]
    rw [erase_idem a svm vm hm, eraseFields_idem as svm vm hm]
termination_by sizeOf fs
decreasing_by all_goals (subst_vars; simp_wf; try omega)

end

theorem eraseValues_escape {m : List (String × PrimExpr)} {vs : List PrimExpr}
    (h : ∃ e ∈ vs, primDefined m e = false) : eraseValues m vs = none := by
  unfold eraseValues
  rw [if_neg]
  intro hall
  obtain ⟨e, he, hfalse⟩ := h
  have := List.all_eq_true.mp hall e he
  simp [this] at hfalse

end Relax

namespace Relax

/-! ### Well-formedness lemmas -/

theorem bindingsOk_iff (bs : List RBinding) :
    ∀ scope, bindingsOk scope bs = true ↔ BindingsWF scope bs := by
  induction bs with
  | nil => intro scope; simp [bindingsOk, BindingsWF]
  | cons b bs ih =>
    intro scope
    simp [bindingsOk, BindingsWF, ih, List.all_eq_true, and_assoc]

theorem blocksOk_iff (blks : List RBlock) :
    ∀ scope, blocksOk scope blks = true ↔ BlocksWF scope blks := by
  induction blks with
  | nil => intro scope; simp [blocksOk, BlocksWF]
  | cons blk rest ih =>
    intro scope
    cases blk with
    | plain bs => simp [blocksOk, BlocksWF, bindingsOk_iff, ih]
    | dataflow bs outs =>
      simp [blocksOk, BlocksWF, bindingsOk_iff, ih, List.all_eq_true, and_assoc]

theorem well_formed_iff (mod : IRModule) (c : Bool) :
    well_formed mod c = true ↔ WellFormed mod c := by
  unfold well_formed WellFormed funcOk
  rw [List.all_eq_true]
  refine forall_congr' fun f => forall_congr' fun hf => ?_
  rw [Bool.and_eq_true, blocksOk_iff]
  rcases c with _ | _ <;> simp

end Relax

namespace Relax

theorem mapM_convert_error {l : List PySinfo}
    (h : ∃ s ∈ l, ∃ e, convert_shape_type s = .error e) :
    ∃ e, l.mapM convert_shape_type = .error e := by
  induction l with
  | nil => simp at h
  | cons a as ih =>
    rw [List.mapM_cons]
    cases ha : convert_shape_type a with
    | error e => exact ⟨e, rfl⟩
    | ok p =>
      obtain ⟨s, hs, e, he⟩ := h
      rcases List.mem_cons.mp hs with rfl | hs'
      · rw [ha] at he; cases he
      · obtain ⟨e', he'⟩ := ih ⟨s, hs', e, he⟩
        rw [he']
        exact ⟨e', rfl⟩

end Relax

namespace Relax

/-! ### Claim theorems -/

/-- C2: base-checking TensorInfo(float32, (n, n)) with n an unbound
symbolic variable against TensorInfo(float32, (3, 3)) returns FAIL_L2 —
neither PASS nor a hard L0/L1 failure — since compatibility cannot be
decided without knowing n. -/
theorem base_check_symbolic_square_fail_l2 :
    struct_info_base_check (.tensor "float32" 2 (some [.var "n", .var "n"]))
      (.tensor "float32" 2 (some [.imm 3, .imm 3])) = .FAIL_L2 := by
  simp [struct_info_base_check, dtypeCheck, ndimCheck, valuesCheck, dimCheck,
    BaseCheckResult.combine, BaseCheckResult.toNat]

/-- C3: erasing TensorInfo(float32, shape [n, m]) under shape_var_map
mapping only n (to 5) and an empty var_map drops the whole values
sequence and keeps only the rank, yielding TensorInfo(float32, shape
none, ndim 2); in general, whenever any dimension of a values sequence
references a variable absent from the map, the entire sequence is
dropped — for shapes and tensors alike — and only ndim is kept. -/
theorem erase_escaping_dimension_drops_whole_shape :
    (erase_to_well_defined (.tensor "float32" 2 (some [.var "n", .var "m"]))
        [("n", .imm 5)] [] = .tensor "float32" 2 none) ∧
    (∀ (n : Int) (vs : List PrimExpr) (svm vm : List (String × PrimExpr)),
      (∃ e ∈ vs, primDefined svm e = false) →
        erase_to_well_defined (.shape n (some vs)) svm vm = .shape n none) ∧
    (∀ (d : String) (n : Int) (vs : List PrimExpr)
        (svm vm : List (String × PrimExpr)),
      (∃ e ∈ vs, primDefined svm e = false) →
        erase_to_well_defined (.tensor d n (some vs)) svm vm =
          .tensor d n none) := by
  refine ⟨?_, ?_, ?_⟩
  · simp [erase_to_well_defined, eraseValues, primDefined, List.lookup]
  · intro n vs svm vm h
    simp [erase_to_well_defined, eraseValues_escape h]
  · intro d n vs svm vm h
    simp [erase_to_well_defined, eraseValues_escape h]

/-- C4: struct_info_lca is commutative — lca(a, b) is structurally equal
to lca(b, a) for all StructInfo a, b — and idempotent — lca(s, s) is
structurally equal to s for every StructInfo s. -/
theorem lca_commutative_and_idempotent :
    (∀ a b : StructInfo, struct_info_lca a b = struct_info_lca b a) ∧
    (∀ s : StructInfo, struct_info_lca s s = s) :=
  ⟨lca_comm, lca_self⟩

/-- C5: whenever the base check of a against b passes, the least common
ancestor of a and b is structurally equal to a. -/
theorem base_check_pass_implies_lca_left (a b : StructInfo)
    (h : struct_info_base_check a b = .PASS) : struct_info_lca a b = a :=
  base_check_pass_lca a b h

theorem base_check_pass_implies_lca_left_witness :
    struct_info_base_check (.tensor "" 2 none)
        (.tensor "float32" 2 (some [.imm 2, .imm 3])) = .PASS ∧
      struct_info_lca (.tensor "" 2 none)
        (.tensor "float32" 2 (some [.imm 2, .imm 3])) = .tensor "" 2 none := by
  have hpass : struct_info_base_check (.tensor "" 2 none)
      (.tensor "float32" 2 (some [.imm 2, .imm 3])) = .PASS := by
    simp [struct_info_base_check, dtypeCheck, ndimCheck, valuesCheck,
      BaseCheckResult.combine, BaseCheckResult.toNat]
  exact ⟨hpass, base_check_pass_implies_lca_left _ _ hpass⟩

/-- C6 counterexample: erasure is not idempotent for every fixed map — for
the map sending n to the expression m (with m itself unmapped), one
erasure of Tensor(float32, [n]) substitutes n with m, and a second
erasure then drops the shape entirely. -/
theorem erase_not_idempotent_for_shifting_map :
    erase_to_well_defined
        (erase_to_well_defined (.tensor "float32" 1 (some [.var "n"]))
          [("n", .var "m")] [])
        [("n", .var "m")] [] ≠
      erase_to_well_defined (.tensor "float32" 1 (some [.var "n"]))
        [("n", .var "m")] [] := by
  have h1 : erase_to_well_defined (.tensor "float32" 1 (some [.var "n"]))
      [("n", .var "m")] [] = .tensor "float32" 1 (some [.var "m"]) := by
    simp [erase_to_well_defined, eraseValues, primDefined, List.lookup, substPrim]
  have h2 : erase_to_well_defined (.tensor "float32" 1 (some [.var "m"]))
      [("n", .var "m")] [] = .tensor "float32" 1 none := by
    simp [erase_to_well_defined, eraseValues, primDefined, List.lookup, substPrim]
  rw [h1, h2]
  simp

/-- C6 amended: erasure is idempotent for every fixed pair of maps whose
shape_var_map is substitution-stable — every variable occurring in a
replacement expression is mapped to itself (in particular whenever the
replacement expressions are concrete): then erasing twice under the same
maps is structurally equal to erasing once. -/
theorem erase_idempotent_for_stable_maps (s : StructInfo)
    (svm vm : List (String × PrimExpr)) (hm : selfStableMap svm = true) :
    erase_to_well_defined (erase_to_well_defined s svm vm) svm vm =
      erase_to_well_defined s svm vm :=
  erase_idem s svm vm hm

theorem erase_idempotent_for_stable_maps_witness :
    erase_to_well_defined
        (erase_to_well_defined (.tensor "float32" 2 (some [.var "n", .var "m"]))
          [("n", .imm 5)] [])
        [("n", .imm 5)] [] =
      erase_to_well_defined (.tensor "float32" 2 (some [.var "n", .var "m"]))
        [("n", .imm 5)] [] :=
  erase_idempotent_for_stable_maps _ _ _ (by decide)

/-- C7: deriving the return struct info of a call to a function declared
(Tensor(n, m)) -> Tensor(m, n), with no custom derivation rule, on an
actual argument of struct info Tensor(2, 3), binds n to 2 and m to 3 by
structural unification and substitutes them into the declared return,
yielding Tensor(3, 2). -/
theorem derive_call_ret_swaps_dimensions :
    derive_call_ret_struct_info
        (.funcP [.tensor "float32" 2 (some [.var "n", .var "m"])]
          (.tensor "float32" 2 (some [.var "m", .var "n"])))
        [.tensor "float32" 2 (some [.imm 2, .imm 3])] =
      some (.tensor "float32" 2 (some [.imm 3, .imm 2])) := by
  simp [derive_call_ret_struct_info, unifyFields, unifySinfo, unifyVals,
    unifyDim, List.lookup, erase_to_well_defined, eraseValues, primDefined,
    substPrim]

/-- C8: well_formed is a boolean query — equal to true exactly when the
module satisfies the well-formedness invariants, returning the ordinary
value false (not raising) on a not-well-formed module such as one whose
dataflow block's variable is referenced after the block without being
declared an output — and omitting check_struct_info defaults it to true,
so defined struct info is checked by default. -/
theorem well_formed_boolean_query :
    (∀ mod : IRModule, well_formed mod = well_formed mod true) ∧
    (∀ (mod : IRModule) (c : Bool), well_formed mod c = true ↔ WellFormed mod c) ∧
    well_formed [⟨[], [.dataflow [⟨"x", [], true⟩] [],
      .plain [⟨"y", ["x"], true⟩]]⟩] = false :=
  ⟨fun _ => rfl, well_formed_iff, by decide⟩

/-- C10: importing the datatype operator module fails with a NameError —
its signatures reference Optional (in cumsum) and PrimExprLike, List and
Tuple (in collapse_sum_to) while the module imports only Union from
typing — so no function of the module, astype and wrap_param included,
is reachable through a normal import; the final conjunct shows
collapse_sum_to's annotations fail even with every earlier module name
bound. -/
theorem datatype_module_import_fails :
    importDatatypeModule = .error (.nameError "Optional") ∧
    (∀ nm, datatypeModuleAttr nm = false) ∧
    evalAnnotations
        ("collapse_sum_like" :: "cumsum" :: "wrap_param" :: "astype" ::
          "Constant" :: "Expr" :: "_ffi_api" :: "DataType" :: "Union" ::
          pyBuiltins)
        ["Expr", "Union", "PrimExprLike", "List", "PrimExprLike", "Tuple",
          "PrimExprLike", "Expr", "Expr"] = .error (.nameError "PrimExprLike") :=
  ⟨rfl, fun _ => rfl, rfl⟩

end Relax

namespace Relax

/-- C1 counterexample: the error kinds are not as the claim assigns them —
for a declared output TensorStructInfo with unknown dtype (and a
perfectly defined symbolic shape), call_tir raises a ValueError, not a
TypeError. -/
theorem call_tir_unknown_dtype_is_value_error :
    call_tir (.inl "my_func") (.inr [])
        (.inl (.tensorSI "" (some (some [.imm 2])))) none =
      .error (.valueError "The output tensor should have known dtype") := rfl

/-- C1 amended: when call_tir is given an invalid declared output struct
info it raises a descriptive error instead of returning a degenerate
StructInfo: a TypeError when the output struct info is not a
TensorStructInfo, and a ValueError when its dtype is unknown or its
symbolic shape is missing or invalid; in each case — also anywhere in a
list of outputs — the error is raised before any Call node is
constructed. -/
theorem call_tir_invalid_output_errors_before_call :
    (∀ (f : Sum String ExprM) (a : Sum ExprM (List ExprM))
        (tv : Option (List PrimExpr)) (s : PySinfo),
      (∀ d sh, s ≠ .tensorSI d sh) →
        ∃ m, call_tir f a (.inl s) tv = .error (.typeError m)) ∧
    (∀ (f : Sum String ExprM) (a : Sum ExprM (List ExprM))
        (tv : Option (List PrimExpr)) (sh : Option (Option (List PrimExpr))),
      call_tir f a (.inl (.tensorSI "" sh)) tv =
        .error (.valueError "The output tensor should have known dtype")) ∧
    (∀ (f : Sum String ExprM) (a : Sum ExprM (List ExprM))
        (tv : Option (List PrimExpr)) (d : String), d ≠ "" →
      call_tir f a (.inl (.tensorSI d none)) tv =
          .error (.valueError "The output tensor should have defined symbolic shape") ∧
        call_tir f a (.inl (.tensorSI d (some none))) tv =
          .error (.valueError "The output tensor should have defined symbolic shape")) ∧
    (∀ (f : Sum String ExprM) (a : Sum ExprM (List ExprM))
        (tv : Option (List PrimExpr)) (s : PySinfo) (e : PyError),
      convert_shape_type s = .error e → call_tir f a (.inl s) tv = .error e) ∧
    (∀ (f : Sum String ExprM) (a : Sum ExprM (List ExprM))
        (tv : Option (List PrimExpr)) (l : List PySinfo),
      (∃ s ∈ l, ∃ e, convert_shape_type s = .error e) →
        ∃ e, call_tir f a (.inr l) tv = .error e) := by
  refine ⟨?_, ?_, ?_, ?_, ?_⟩
  · intro f a tv s hs
    cases s with
    | tensorSI d sh => exact absurd rfl (hs d sh)
    | tupleSI k => exact ⟨_, rfl⟩
    | objectSI => exact ⟨_, rfl⟩
  · intro f a tv sh
    cases sh with
    | none => rfl
    | some v => cases v <;> rfl
  · intro f a tv d hd
    constructor <;> simp [call_tir, convert_shape_type, hd]
  · intro f a tv s e h
    simp [call_tir, h]
  · intro f a tv l h
    obtain ⟨e, he⟩ := mapM_convert_error h
    refine ⟨e, ?_⟩
    simp only [call_tir]
    rw [he]

end Relax

namespace Relax

/-- C9: the function registered as "relax.run.assert_op" returns without
raising exactly when its condition is a boolean scalar NDArray holding
true; a false condition raises AssertionError with message
format_str.format(rendered args) when format_str is non-empty, the
comma-separated rendered args when format_str is empty and args are
given, and "Assertion Failed" otherwise; a non-string format_str, a
non-NDArray condition, a non-bool condition dtype, and a non-empty
condition shape each raise ValueError, independently of the condition's
held value. -/
theorem relax_assert_op_spec :
    (∀ (fs : String) (cond : TVMObj) (args : List TVMObj),
      relax_assert_op cond (.pyStr fs) args = .ok () ↔
        cond = .ndarray "bool" [] true) ∧
    (∀ (fs : String) (args : List TVMObj), fs ≠ "" →
      relax_assert_op (.ndarray "bool" [] false) (.pyStr fs) args =
        .error (.assertionError (pyFormat fs (args.map render_object)))) ∧
    (∀ args : List TVMObj, args ≠ [] →
      relax_assert_op (.ndarray "bool" [] false) (.pyStr "") args =
        .error (.assertionError
          (String.intercalate ", " (args.map render_object)))) ∧
    (relax_assert_op (.ndarray "bool" [] false) (.pyStr "") [] =
      .error (.assertionError "Assertion Failed")) ∧
    (∀ (t : String) (cond : TVMObj) (args : List TVMObj),
      ∃ m, relax_assert_op cond (.nonStr t) args = .error (.valueError m)) ∧
    (∀ (fs : String) (args : List TVMObj) (cond : TVMObj),
      (∀ d sh v, cond ≠ .ndarray d sh v) →
        ∃ m, relax_assert_op cond (.pyStr fs) args = .error (.valueError m)) ∧
    (∀ (fs d : String) (sh : List Nat) (args : List TVMObj), d ≠ "bool" →
      ∃ m, ∀ v, relax_assert_op (.ndarray d sh v) (.pyStr fs) args =
        .error (.valueError m)) ∧
    (∀ (fs : String) (sh : List Nat) (args : List TVMObj), sh ≠ [] →
      ∃ m, ∀ v, relax_assert_op (.ndarray "bool" sh v) (.pyStr fs) args =
        .error (.valueError m)) := by
  refine ⟨?_, ?_, ?_, rfl, ?_, ?_, ?_, ?_⟩
  · intro fs cond args
    constructor
    · intro h
      cases cond with
      | ndarray d sh v =>
        simp only [relax_assert_op] at h
        split_ifs at h with h1 h2 h3
        · push_neg at h1
          obtain rfl : sh = [] := List.length_eq_zero.mp (by omega)
          rw [h1, h3]
      | adt tag fields => simp [relax_assert_op] at h
      | other r => simp [relax_assert_op] at h
    · rintro rfl
      rfl
  · intro fs args hfs
    simp [relax_assert_op, assertMessage, hfs]
  · intro args hargs
    have : (args.map render_object).isEmpty = false := by
      simp [List.isEmpty_iff, hargs]
    simp [relax_assert_op, assertMessage, this]
  · intro t cond args
    exact ⟨_, rfl⟩
  · intro fs args cond h
    cases cond with
    | ndarray d sh v => exact absurd rfl (h d sh v)
    | adt tag fields => exact ⟨_, rfl⟩
    | other r => exact ⟨_, rfl⟩
  · intro fs d sh args hd
    exact ⟨"The condition must be a bool scalar, but given a " ++ d ++ " tensor",
      fun v => by simp [relax_assert_op, hd]⟩
  · intro fs sh args hsh
    have hlen : sh.length ≠ 0 := by simpa [List.length_eq_zero] using hsh
    exact ⟨"The condition must be a scalar, but it has a shape of " ++ pyTupleStr sh,
      fun v => by simp [relax_assert_op, hlen]⟩

end Relax
